import Mathlib

/-!
Verification of the PDF manipulation and text-extraction engines of the
pdf-prodigy backend.

The development shallowly embeds the two engines:
* `app/services/pdf_service.py` — `edit_pdf`, `split_pdf`, `merge_pdfs`
* `services/ocr_service.py` — `_process_page`'s source-selection policy,
  `_is_readable_text`, `_calculate_confidence`

Machine integers are modelled by `Nat`/`Int`, Python floats by exact
rationals (`ℚ`), Python strings by Lean `String`s.
-/

/-! ## Text-extraction engine (`services/ocr_service.py`) -/

/-- The `text_source` tag of a page, one of `"native"`, `"ocr"`, `"hybrid"`. -/
inductive TextSource where
  | native
  | ocr
  | hybrid
deriving DecidableEq, Repr

/-- Python `text.split()`: split on whitespace runs, dropping empty pieces. -/
def pySplit (t : String) : List String :=
  (t.split (fun c => c.isWhitespace)).filter (fun w => w != "")

/-- The fixed stop-word set of `_is_readable_text` (`common_words`). -/
def commonWords : List String :=
  ["the", "and", "to", "of", "a", "in", "for", "is", "on", "that",
   "by", "this", "with", "from", "at", "as"]

/-- `alpha_chars`: the number of alphabetic characters of the text. -/
def alphaCount (t : String) : Nat :=
  t.data.countP (fun c => c.isAlpha)

/-- `total_chars = len(text.replace(' ', ''))`: the number of characters
that are not the space character. -/
def nonSpaceCount (t : String) : Nat :=
  (t.data.filter (fun c => c != ' ')).length

/-- `words = text.lower().split()`. -/
def lowerWords (t : String) : List String :=
  pySplit t.toLower

/-- `OCRService._is_readable_text`.  The float comparison
`alpha_ratio > 0.5` (with `alpha_ratio = alpha_chars / total_chars`) is
modelled exactly as `2 * alpha_chars > total_chars`. -/
def is_readable_text (t : String) : Bool :=
  if t.length < 10 then
    false
  else
    let alpha := alphaCount t
    let total := nonSpaceCount t
    if total = 0 then
      false
    else
      let ws := lowerWords t
      let common := ws.countP (fun w => commonWords.contains w)
      decide (2 * alpha > total) && (decide (ws.length < 5) || decide (common > 0))

/-- The source-selection policy of `OCRService._process_page` (lines
106–114): given the cleaned native text, the cleaned OCR text and the
measured OCR confidence, return `(best_text, text_source)`. -/
def choose_best (native_clean ocr_clean : String) (ocr_confidence : ℚ) :
    String × TextSource :=
  if 50 < native_clean.length ∧ is_readable_text native_clean = true then
    (native_clean, TextSource.native)
  else if 10 < ocr_clean.length ∧ 60 < ocr_confidence then
    (ocr_clean, TextSource.ocr)
  else
    (if ocr_clean.length < native_clean.length then native_clean else ocr_clean,
     TextSource.hybrid)

/-- The fields of one page record used by `_calculate_confidence`:
`word_count` (= `len(best_text.split())`), `text_source`, `ocr_confidence`. -/
structure PageData where
  word_count : Nat
  text_source : TextSource
  ocr_confidence : ℚ
deriving DecidableEq, Repr

/-- The per-page confidence assigned inside `_calculate_confidence`:
95 for native, the measured OCR confidence for ocr, 70 for hybrid. -/
def pageConfidence (p : PageData) : ℚ :=
  match p.text_source with
  | TextSource.native => 95
  | TextSource.ocr => p.ocr_confidence
  | TextSource.hybrid => 70

/-- One iteration of the accumulation loop of `_calculate_confidence`:
pages with `word_count = 0` contribute nothing. -/
def confStep (acc : ℚ × Nat) (p : PageData) : ℚ × Nat :=
  if 0 < p.word_count then
    (acc.1 + pageConfidence p * p.word_count, acc.2 + p.word_count)
  else
    acc

/-- `OCRService._calculate_confidence`: word-count-weighted average of the
per-page confidences; 0 when no page contributes any words (the code's
early `if not pages_data: return 0` is subsumed by the zero-weight case). -/
def calculate_confidence (pages : List PageData) : ℚ :=
  let acc := pages.foldl confStep (0, 0)
  if 0 < acc.2 then acc.1 / acc.2 else 0

/-- The page record built by `_process_page` from the cleaned texts and the
measured OCR confidence (only the fields `_calculate_confidence` reads). -/
def process_page (native_clean ocr_clean : String) (ocr_confidence : ℚ) :
    PageData :=
  let bs := choose_best native_clean ocr_clean ocr_confidence
  ⟨(pySplit bs.1).length, bs.2, ocr_confidence⟩

/-- Spec-shaped weighted sum: `Σ confidence(p) * weight(p)` over the pages
with positive word count. -/
def confWeightedSum (pages : List PageData) : ℚ :=
  (pages.map (fun p => if 0 < p.word_count then pageConfidence p * p.word_count else 0)).sum

/-- Spec-shaped total weight: `Σ weight(p)` over the pages with positive
word count. -/
def confTotalWeight (pages : List PageData) : Nat :=
  (pages.map (fun p => if 0 < p.word_count then p.word_count else 0)).sum

/-! ## PDF manipulation engine (`app/services/pdf_service.py`) -/

/-- One table-of-contents entry produced by `merge_pdfs`'s
`set_toc_item(level=1, title=..., page=...)` call: a level, a title and a
0-based target page. -/
structure TocEntry where
  level : Nat
  title : String
  page : Nat
deriving DecidableEq, Repr

/-- The merge loop of `PDFService.merge_pdfs` (lines 259–277): inputs are
given by their page counts; `i` is the 0-based index of the next input and
`total` the running page total.  When `bookmark` is set, each input adds a
level-1 entry titled `"Document {i+1}"` whose target page is
`total_pages - page_count`, the 0-based first page of that input's range. -/
def mergeRec (inputs : List Nat) (bookmark : Bool) (i : Nat) (total : Nat) :
    Nat × List TocEntry :=
  match inputs with
  | [] => (total, [])
  | pageCount :: rest =>
    let total2 := total + pageCount
    let tail := mergeRec rest bookmark (i + 1) total2
    (tail.1,
     (if bookmark then
        [TocEntry.mk 1 ("Document " ++ toString (i + 1)) (total2 - pageCount)]
      else []) ++ tail.2)

/-- `PDFService.merge_pdfs`: returns the merged document's `total_pages`
and its synthesized table of contents. -/
def merge_pdfs (inputs : List Nat) (bookmark_structure : Bool) :
    Nat × List TocEntry :=
  mergeRec inputs bookmark_structure 0 0

/-- The merge endpoint (`pdf_operations_controller.merge_pdfs`): rejects
fewer than 2 files with HTTP 400 before invoking the service.  (Filename
validation and merge-order parsing are boundary-layer concerns orthogonal
to the modelled page/TOC behaviour and are elided.) -/
def merge_endpoint (files : List Nat) (bookmark_structure : Bool) :
    Except String (Nat × List TocEntry) :=
  if files.length < 2 then
    Except.error "At least 2 PDF files are required for merging"
  else
    Except.ok (merge_pdfs files bookmark_structure)

/-- The split configuration (`split_type` plus its variant field), as read
from `split_config` by `PDFService.split_pdf`.  `size` carries
`split_config.get("max_pages_per_file", 10)`'s optional field. -/
inductive SplitConfig where
  | pages (ps : List Int)
  | range (rs : List (Int × Int))
  | size (max_pages_per_file : Option Nat)
deriving DecidableEq, Repr

/-- One output document of a split: its 0-based inclusive page range in the
source document and its output name (without the `.pdf` suffix). -/
structure SplitOutput where
  fromPage : Nat
  toPage : Nat
  name : String
deriving DecidableEq, Repr

/-- The page count of a split output (`to_page - from_page + 1`). -/
def outputPages (o : SplitOutput) : Nat :=
  o.toPage - o.fromPage + 1

/-- Python `range(start, stop, step)` with the fuel `stop - start`, which
bounds the iteration count whenever `step ≥ 1`. -/
def pyRangeAux (stop step : Nat) : Nat → Nat → List Nat
  | _, 0 => []
  | s, fuel + 1 =>
    if 0 < step ∧ s < stop then s :: pyRangeAux stop step (s + step) fuel else []

/-- Python `range(start, stop, step)` for a positive `step` (a zero `step`
raises `ValueError` in Python; callers model that case separately). -/
def pyRange (start stop step : Nat) : List Nat :=
  pyRangeAux stop step start (stop - start)

/-- `PDFService.split_pdf` (lines 180–219), by variant:
* `pages`: each requested 1-based page number inside `[1, total_pages]`
  yields a single-page output `page_{n}`; others are silently skipped;
* `range`: each `(start, end)` with `1 ≤ start ≤ end ≤ total_pages`
  yields output `pages_{start}-{end}`; others are silently skipped;
* `size`: `max_pages_per_file` defaults to 10 when absent; chunks start at
  `i = 0, m, 2m, …` with `to_page = min(i + m - 1, total_pages - 1)` and
  name `part_{i // m + 1}`.  A zero chunk size makes Python's `range`
  raise `ValueError`, caught as the failure record. -/
def split_pdf (totalPages : Nat) (config : SplitConfig) :
    Except String (List SplitOutput) :=
  match config with
  | SplitConfig.pages ps =>
    Except.ok (ps.filterMap (fun p =>
      if 1 ≤ p ∧ p ≤ (totalPages : Int) then
        some ⟨(p - 1).toNat, (p - 1).toNat, "page_" ++ toString p⟩
      else none))
  | SplitConfig.range rs =>
    Except.ok (rs.filterMap (fun r =>
      if 1 ≤ r.1 ∧ r.1 ≤ r.2 ∧ r.2 ≤ (totalPages : Int) then
        some ⟨(r.1 - 1).toNat, (r.2 - 1).toNat,
              "pages_" ++ toString r.1 ++ "-" ++ toString r.2⟩
      else none))
  | SplitConfig.size mo =>
    let m := mo.getD 10
    if m = 0 then
      Except.error "range() arg 3 must not be zero"
    else
      Except.ok ((pyRange 0 totalPages m).map (fun i =>
        ⟨i, min (i + m - 1) (totalPages - 1), "part_" ++ toString (i / m + 1)⟩))

/-- `PDFService.edit_pdf`'s page addressing (lines 43–46): the request
fails iff `page_number > page_count`; otherwise `load_page(page_number - 1)`
resolves a negative 0-based index modulo the page count (PyMuPDF counts
negative indices from the end).  Returns the 0-based index of the edited
page. -/
def edit_pdf (page_number : Int) (page_count : Nat) : Except String Nat :=
  if (page_count : Int) < page_number then
    Except.error ("Page " ++ toString page_number ++ " does not exist")
  else if page_count = 0 then
    Except.error "page not in document"
  else
    Except.ok ((page_number - 1) % (page_count : Int)).toNat

/-! ## Helper lemmas -/

/-- Alphabetic characters are never the space character, so `alpha_chars`
never exceeds `total_chars`. -/
theorem alphaCount_le_nonSpaceCount (t : String) : alphaCount t ≤ nonSpaceCount t := by
  unfold alphaCount nonSpaceCount
  rw [← List.countP_eq_length_filter]
  refine List.countP_mono_left (fun c _ hc => ?_)
  simp only [bne_iff_ne, ne_eq]
  intro h
  subst h
  exact absurd hc (by decide)

/-- C9: a string passes the readability test iff its length is at least 10,
more than half of its non-space characters are alphabetic, and it has fewer
than 5 words or contains a stop word; `"Hello"` fails on the length
threshold alone. -/
theorem C9_readability_characterization (t : String) :
    (is_readable_text t = true ↔
      10 ≤ t.length ∧
      nonSpaceCount t < 2 * alphaCount t ∧
      ((lowerWords t).length < 5 ∨ ∃ w ∈ lowerWords t, w ∈ commonWords)) ∧
    (is_readable_text "Hello" = false ∧ ("Hello" : String).length < 10) := by
  constructor
  · unfold is_readable_text
    dsimp only
    split_ifs with h1 h2
    · simp only [Bool.false_eq_true, false_iff]
      rintro ⟨hlen, -⟩
      omega
    · simp only [Bool.false_eq_true, false_iff]
      rintro ⟨-, hratio, -⟩
      have := alphaCount_le_nonSpaceCount t
      omega
    · simp only [Bool.and_eq_true, Bool.or_eq_true, decide_eq_true_eq,
        gt_iff_lt, List.countP_pos_iff, List.elem_iff]
      constructor
      · rintro ⟨ha, hb⟩
        exact ⟨by omega, ha, by simpa using hb⟩
      · rintro ⟨-, ha, hb⟩
        exact ⟨ha, by simpa using hb⟩
  · exact ⟨by decide, by decide⟩

/-- C2: the page's text source follows the fixed-order policy — native when
the cleaned native text is long and readable, else ocr when the cleaned OCR
text is long enough and confident enough, else hybrid (with the longer of
the two texts); hybrid occurs exactly when neither earlier rule applies. -/
theorem C2_source_selection_policy (n o : String) (c : ℚ) :
    ((choose_best n o c).2 = TextSource.native ↔
      50 < n.length ∧ is_readable_text n = true) ∧
    ((choose_best n o c).2 = TextSource.ocr ↔
      ¬(50 < n.length ∧ is_readable_text n = true) ∧ (10 < o.length ∧ 60 < c)) ∧
    ((choose_best n o c).2 = TextSource.hybrid ↔
      ¬(50 < n.length ∧ is_readable_text n = true) ∧ ¬(10 < o.length ∧ 60 < c)) ∧
    (choose_best n o c).1 =
      (if (choose_best n o c).2 = TextSource.native then n
       else if (choose_best n o c).2 = TextSource.ocr then o
       else if o.length < n.length then n else o) := by
  unfold choose_best
  split_ifs with h1 h2 <;> simp_all

/-- C10: when neither the native rule nor the OCR rule applies and the two
cleaned texts have equal length, the hybrid tie resolves to the OCR text. -/
theorem C10_hybrid_tie_prefers_ocr (n o : String) (c : ℚ)
    (h1 : ¬(50 < n.length ∧ is_readable_text n = true))
    (h2 : ¬(10 < o.length ∧ 60 < c))
    (heq : n.length = o.length) :
    choose_best n o c = (o, TextSource.hybrid) := by
  unfold choose_best
  rw [if_neg h1, if_neg h2, if_neg (by omega)]

/-- Witness for C10 at `n = "abcde"`, `o = "vwxyz"`, `c = 0`. -/
theorem C10_hybrid_tie_prefers_ocr_witness :
    (¬(50 < ("abcde" : String).length ∧ is_readable_text "abcde" = true) ∧
     ¬(10 < ("vwxyz" : String).length ∧ 60 < (0 : ℚ)) ∧
     ("abcde" : String).length = ("vwxyz" : String).length) ∧
    choose_best "abcde" "vwxyz" 0 = ("vwxyz", TextSource.hybrid) :=
  ⟨⟨by decide, by norm_num, by decide⟩,
   C10_hybrid_tie_prefers_ocr "abcde" "vwxyz" 0 (by decide) (by norm_num) (by decide)⟩

/-- The accumulation loop of `_calculate_confidence` computes the
spec-shaped weighted sum and total weight. -/
theorem conf_foldl_eq (pages : List PageData) :
    ∀ (a : ℚ) (w : Nat),
      pages.foldl confStep (a, w) = (a + confWeightedSum pages, w + confTotalWeight pages) := by
  induction pages with
  | nil => intro a w; simp [confWeightedSum, confTotalWeight]
  | cons p rest ih =>
    intro a w
    simp only [List.foldl_cons, confWeightedSum, confTotalWeight, List.map_cons,
      List.sum_cons, confStep]
    split_ifs with hp
    · rw [ih]
      simp only [Prod.mk.injEq, confWeightedSum, confTotalWeight]
      constructor
      · ring
      · omega
    · rw [ih]
      simp only [Prod.mk.injEq, confWeightedSum, confTotalWeight]
      constructor
      · ring
      · omega

/-- Pages with zero words contribute nothing to the weighted sum. -/
theorem confWeightedSum_filter (pages : List PageData) :
    confWeightedSum (pages.filter (fun p => 0 < p.word_count)) = confWeightedSum pages ∧
    confTotalWeight (pages.filter (fun p => 0 < p.word_count)) = confTotalWeight pages := by
  induction pages with
  | nil => simp [confWeightedSum, confTotalWeight]
  | cons p rest ih =>
    by_cases hp : 0 < p.word_count
    · simp [confWeightedSum, confTotalWeight, List.filter_cons, hp] at ih ⊢
      exact ⟨by rw [ih.1], by rw [ih.2]⟩
    · simp [confWeightedSum, confTotalWeight, List.filter_cons, hp] at ih ⊢
      exact ih

/-- C3 (amended): the document confidence is the word-count-weighted
average of the per-page confidences (95 native / measured ocr / 70 hybrid),
zero-word pages are excluded and a document with no contributing words
scores 0; the two-page example (10 native words; 5 OCR words at
confidence 80) yields exactly 90. -/
theorem C3_confidence_weighted_average (pages : List PageData) :
    (calculate_confidence pages =
      (if 0 < confTotalWeight pages then
        confWeightedSum pages / (confTotalWeight pages : ℚ)
       else 0)) ∧
    calculate_confidence (pages.filter (fun p => 0 < p.word_count)) =
      calculate_confidence pages ∧
    calculate_confidence
      [⟨10, TextSource.native, 0⟩, ⟨5, TextSource.ocr, 80⟩] = 90 := by
  refine ⟨?_, ?_, by unfold calculate_confidence confStep pageConfidence; norm_num⟩
  · unfold calculate_confidence
    rw [conf_foldl_eq]
    simp
  · unfold calculate_confidence
    rw [conf_foldl_eq, conf_foldl_eq, (confWeightedSum_filter pages).1,
      (confWeightedSum_filter pages).2]

/-- C3 counterexample: the claim's example value `(95*10 + 80*5)/15 ≈ 89.67`
is arithmetically wrong — the code computes exactly 90, which is more than
0.1 away from 89.67. -/
theorem C3_example_counterexample :
    calculate_confidence
      [⟨10, TextSource.native, 0⟩, ⟨5, TextSource.ocr, 80⟩] = 90 ∧
    (1 / 10 : ℚ) < 90 - 8967 / 100 := by
  constructor
  · unfold calculate_confidence confStep pageConfidence
    norm_num
  · norm_num

/-- Closed form of the merge loop: the running total accumulates every page
count, and with bookmarks on, input `j` (0-based, counting from loop
position `i`) contributes a level-1 entry targeting the 0-based offset of
its first page. -/
theorem mergeRec_eq (inputs : List Nat) (b : Bool) :
    ∀ (i total : Nat),
      mergeRec inputs b i total =
        (total + inputs.sum,
         if b then
           (List.range inputs.length).map (fun j =>
             TocEntry.mk 1 ("Document " ++ toString (i + j + 1))
               (total + (inputs.take j).sum))
         else []) := by
  induction inputs with
  | nil => intro i total; simp [mergeRec]
  | cons pc rest ih =>
    intro i total
    simp only [mergeRec, ih, List.sum_cons, List.length_cons]
    cases b with
    | false => simp [Nat.add_assoc]
    | true =>
      simp only [if_true, List.nil_append, Prod.mk.injEq]
      refine ⟨by omega, ?_⟩
      rw [List.range_succ_eq_map, List.map_cons, List.map_map, List.singleton_append]
      congr 1
      · simp
      · refine List.map_congr_left (fun j hj => ?_)
        simp only [Function.comp_apply, Nat.succ_eq_add_one, List.take_succ_cons,
          List.sum_cons, TocEntry.mk.injEq, true_and]
        constructor
        · congr 2
          omega
        · omega

/-- C1: merging documents with page counts `p₁..pₙ` yields `Σpᵢ` pages, and
with `bookmark_structure` true exactly N level-1 entries, entry `j`
(0-based) titled `"Document {j+1}"` targeting 0-based page
`p₁+…+pⱼ` — the first page of input `j`'s range; merging a 3-page and a
5-page document yields 8 pages with `"Document 1"` targeting 0-based
page 0 (1-based page 1) and `"Document 2"` targeting 0-based page 3
(1-based page 4). -/
theorem C1_merge_pages_and_bookmarks (ps : List Nat) :
    (∀ b, (merge_pdfs ps b).1 = ps.sum) ∧
    (merge_pdfs ps true).2 =
      (List.range ps.length).map (fun j =>
        TocEntry.mk 1 ("Document " ++ toString (j + 1)) ((ps.take j).sum)) ∧
    merge_pdfs [3, 5] true =
      (8, [TocEntry.mk 1 "Document 1" 0, TocEntry.mk 1 "Document 2" 3]) := by
  refine ⟨fun b => ?_, ?_, ?_⟩
  · rw [merge_pdfs, mergeRec_eq]
    simp
  · rw [merge_pdfs, mergeRec_eq]
    simp
  · rw [merge_pdfs, mergeRec_eq]
    simp
    decide

/-- C6: the merge endpoint rejects fewer than 2 files and otherwise hands
the files to the merge service. -/
theorem C6_merge_requires_two_inputs (files : List Nat) (b : Bool) :
    (merge_endpoint files b =
        Except.error "At least 2 PDF files are required for merging" ↔
      files.length < 2) ∧
    (merge_endpoint files b = Except.ok (merge_pdfs files b) ↔
      2 ≤ files.length) := by
  unfold merge_endpoint
  split_ifs with h <;> simp_all

/-- A split configuration whose chunk size is nonzero (Python's `range`
raises on a zero step; all other variants are unconstrained). -/
def sizeLimitOk : SplitConfig → Bool
  | SplitConfig.size mo => mo.getD 10 != 0
  | _ => true

/-- C4 (amended): a `SizeLimit` split without `max_pages_per_file` does not
fail — the engine supplies the default 10, behaving exactly like
`max_pages_per_file = 10`, and returns a success record. -/
theorem C4_amended_size_defaults_to_ten (total : Nat) :
    split_pdf total (SplitConfig.size none) =
      split_pdf total (SplitConfig.size (some 10)) ∧
    ∃ l, split_pdf total (SplitConfig.size none) = Except.ok l := by
  constructor
  · rfl
  · exact ⟨_, rfl⟩

/-- C4 counterexample: on a 12-page document, a `SizeLimit` split with the
field absent succeeds with two chunks of 10 and 2 pages — it does not fail
with `InvalidSplitSpec`. -/
theorem C4_counterexample_absent_field_succeeds :
    split_pdf 12 (SplitConfig.size none) =
      Except.ok [SplitOutput.mk 0 9 "part_1", SplitOutput.mk 10 11 "part_2"] := by
  rfl

/-- C5 (amended): every split of a zero-page document (with a nonzero chunk
size where applicable) succeeds with zero outputs; no `EmptyDocument`
failure exists. -/
theorem C5_amended_zero_pages_succeeds (cfg : SplitConfig)
    (h : sizeLimitOk cfg = true) :
    split_pdf 0 cfg = Except.ok [] := by
  cases cfg with
  | pages ps =>
    simp only [split_pdf, Except.ok.injEq, List.filterMap_eq_nil_iff]
    intro p hp
    rw [if_neg (by omega)]
  | range rs =>
    simp only [split_pdf, Except.ok.injEq, List.filterMap_eq_nil_iff]
    intro r hr
    rw [if_neg (by omega)]
  | size mo =>
    simp only [sizeLimitOk, bne_iff_ne, ne_eq] at h
    simp [split_pdf, h, pyRange, pyRangeAux]

/-- Witness for C5 (amended) at the `SizeLimit 3` configuration. -/
theorem C5_amended_zero_pages_succeeds_witness :
    sizeLimitOk (SplitConfig.size (some 3)) = true ∧
    split_pdf 0 (SplitConfig.size (some 3)) = Except.ok [] :=
  ⟨by decide, C5_amended_zero_pages_succeeds (SplitConfig.size (some 3)) (by decide)⟩

/-- C5 counterexample: on a zero-page source, all three split variants
return a success record with zero outputs instead of failing with
`EmptyDocument`. -/
theorem C5_counterexample_zero_pages_no_error :
    split_pdf 0 (SplitConfig.size (some 3)) = Except.ok [] ∧
    split_pdf 0 (SplitConfig.pages [1]) = Except.ok [] ∧
    split_pdf 0 (SplitConfig.range [(1, 2)]) = Except.ok [] := by
  refine ⟨rfl, rfl, rfl⟩

/-- C7 (amended): element insertion fails exactly when the requested
1-based page number exceeds the page count; page numbers below 1 are not
rejected — `load_page(page_number - 1)` resolves them modulo the page count
(counting from the end).  When the page exists (`1 ≤ p ≤ page_count`) the
element lands on 0-based page `p - 1`. -/
theorem C7_amended_edit_page_check (p : Int) (n : Nat) (hn : 1 ≤ n) :
    ((∃ e, edit_pdf p n = Except.error e) ↔ (n : Int) < p) ∧
    (1 ≤ p → p ≤ (n : Int) → edit_pdf p n = Except.ok (p - 1).toNat) := by
  constructor
  · unfold edit_pdf
    split_ifs with h1 h2
    · simp [h1]
    · exact absurd h2 (by omega)
    · simp
      omega
  · intro hp1 hp2
    unfold edit_pdf
    rw [if_neg (by omega), if_neg (by omega)]
    congr 1
    rw [Int.emod_eq_of_lt (by omega) (by omega)]

/-- Witness for C7 (amended) at `page_number = 2` on a 3-page document. -/
theorem C7_amended_edit_page_check_witness :
    (1 ≤ 3) ∧
    (((∃ e, edit_pdf 2 3 = Except.error e) ↔ (3 : Int) < 2) ∧
     (1 ≤ (2 : Int) → (2 : Int) ≤ (3 : Int) → edit_pdf 2 3 = Except.ok 1)) :=
  ⟨by decide, C7_amended_edit_page_check 2 3 (by decide)⟩

/-- C7 counterexample: on a 1-page document, `page_number = 0` lies outside
`[1, page_count]` yet the edit succeeds, landing on 0-based page 0 (the
last page) — only `page_number > page_count` is rejected. -/
theorem C7_counterexample_page_zero_not_rejected :
    edit_pdf 0 1 = Except.ok 0 := by
  rfl

/-- With enough fuel, the `range(s, stop, m)` loop enumerates
`s, s+m, s+2m, …` — one start per chunk, `⌈(stop-s)/m⌉` of them. -/
theorem pyRangeAux_eq_range (stop m : Nat) (hm : 0 < m) :
    ∀ (fuel s : Nat), stop - s ≤ fuel →
      pyRangeAux stop m s fuel =
        (List.range ((stop - s + m - 1) / m)).map (fun k => s + k * m) := by
  intro fuel
  induction fuel with
  | zero =>
    intro s hs
    have h1 : stop - s = 0 := by omega
    rw [pyRangeAux, h1]
    have h2 : (0 + m - 1) / m = 0 := Nat.div_eq_of_lt (by omega)
    rw [h2]
    simp
  | succ fuel ih =>
    intro s hs
    rw [pyRangeAux]
    split_ifs with h
    · rw [ih (s + m) (by omega)]
      have hd : (stop - s + m - 1) / m = (stop - (s + m) + m - 1) / m + 1 := by
        rcases le_or_lt (s + m) stop with hc | hc
        · have he : stop - s + m - 1 = (stop - (s + m) + m - 1) + m := by omega
          rw [he, Nat.add_div_right _ hm]
        · have h1 : stop - (s + m) = 0 := by omega
          have h2 : (stop - s + m - 1) / m = 1 :=
            Nat.div_eq_of_lt_le (by omega) (by omega)
          rw [h1, h2]
          have h3 : (0 + m - 1) / m = 0 := Nat.div_eq_of_lt (by omega)
          rw [h3]
      rw [hd, List.range_succ_eq_map, List.map_cons, List.map_map]
      congr 1
      · simp
      · refine List.map_congr_left (fun k hk => ?_)
        simp only [Function.comp_apply, Nat.succ_eq_add_one]
        ring
    · have h1 : stop - s = 0 := by omega
      rw [h1]
      have h2 : (0 + m - 1) / m = 0 := Nat.div_eq_of_lt (by omega)
      rw [h2]
      simp

/-- The chunk sizes produced by the `range(s, stop, m)` loop sum to
`stop - s`: together the chunks cover the document exactly once. -/
theorem pyRangeAux_sizes_sum (stop m : Nat) (hm : 0 < m) :
    ∀ (fuel s : Nat), stop - s ≤ fuel →
      ((pyRangeAux stop m s fuel).map
        (fun i => min (i + m - 1) (stop - 1) - i + 1)).sum = stop - s := by
  intro fuel
  induction fuel with
  | zero =>
    intro s hs
    rw [pyRangeAux]
    simp
    omega
  | succ fuel ih =>
    intro s hs
    rw [pyRangeAux]
    split_ifs with h
    · simp only [List.map_cons, List.sum_cons]
      rw [ih (s + m) (by omega)]
      rcases le_total (s + m - 1) (stop - 1) with hmin | hmin
      · rw [min_eq_left hmin]
        omega
      · rw [min_eq_right hmin]
        omega
    · simp
      omega

/-- The chunk list the spec describes for a `SizeLimit m` split of a
`total`-page document: `⌈total/m⌉` consecutive chunks, chunk `k` covering
0-based pages `k*m … min(k*m + m - 1, total - 1)` under the 1-indexed name
`part_{k+1}`. -/
def sizeChunks (total m : Nat) : List SplitOutput :=
  (List.range ((total + m - 1) / m)).map (fun k =>
    SplitOutput.mk (k * m) (min (k * m + m - 1) (total - 1))
      ("part_" ++ toString (k + 1)))

/-- C8: a `SizeLimit` split with `m ≥ 1` on a nonempty document produces
exactly the consecutive chunks of `m` pages (final chunk possibly shorter,
names 1-indexed), whose page counts sum to the total and never exceed
`m`. -/
theorem C8_size_split_chunks (total m : Nat) (hm : 1 ≤ m) (ht : 1 ≤ total) :
    split_pdf total (SplitConfig.size (some m)) = Except.ok (sizeChunks total m) ∧
    ((sizeChunks total m).map outputPages).sum = total ∧
    ∀ o ∈ sizeChunks total m, outputPages o ≤ m := by
  have hsplit : split_pdf total (SplitConfig.size (some m)) =
      Except.ok ((pyRange 0 total m).map (fun i =>
        ⟨i, min (i + m - 1) (total - 1), "part_" ++ toString (i / m + 1)⟩)) := by
    simp only [split_pdf, Option.getD_some]
    rw [if_neg (by omega)]
  have hrange : pyRange 0 total m =
      (List.range ((total + m - 1) / m)).map (fun k => k * m) := by
    rw [pyRange, pyRangeAux_eq_range total m (by omega) (total - 0) 0 (by omega)]
    simp
  refine ⟨?_, ?_, ?_⟩
  · rw [hsplit, hrange, sizeChunks, List.map_map]
    refine congrArg Except.ok (List.map_congr_left (fun k hk => ?_))
    simp only [Function.comp_apply, SplitOutput.mk.injEq]
    rw [Nat.mul_div_cancel k hm]
    simp
  · have hchunk : sizeChunks total m = (pyRange 0 total m).map (fun i =>
        SplitOutput.mk i (min (i + m - 1) (total - 1))
          ("part_" ++ toString (i / m + 1))) := by
      rw [hrange, sizeChunks, List.map_map]
      refine List.map_congr_left (fun k hk => ?_)
      simp only [Function.comp_apply, SplitOutput.mk.injEq]
      rw [Nat.mul_div_cancel k hm]
      simp
    rw [hchunk, List.map_map]
    have hfun : (outputPages ∘ fun i =>
        SplitOutput.mk i (min (i + m - 1) (total - 1))
          ("part_" ++ toString (i / m + 1))) =
        (fun i => min (i + m - 1) (total - 1) - i + 1) := rfl
    rw [hfun, pyRange, pyRangeAux_sizes_sum total m (by omega) (total - 0) 0 (by omega)]
    omega
  · intro o ho
    rw [sizeChunks] at ho
    simp only [List.mem_map, List.mem_range] at ho
    obtain ⟨k, hk, rfl⟩ := ho
    show min (k * m + m - 1) (total - 1) - k * m + 1 ≤ m
    rcases le_total (k * m + m - 1) (total - 1) with hmin | hmin
    · rw [min_eq_left hmin]
      omega
    · rw [min_eq_right hmin]
      omega

/-- Witness for C8 at a 5-page document split into chunks of 2 pages. -/
theorem C8_size_split_chunks_witness :
    (1 ≤ 2 ∧ 1 ≤ 5) ∧
    (split_pdf 5 (SplitConfig.size (some 2)) = Except.ok (sizeChunks 5 2) ∧
     ((sizeChunks 5 2).map outputPages).sum = 5 ∧
     ∀ o ∈ sizeChunks 5 2, outputPages o ≤ 2) :=
  ⟨by decide, C8_size_split_chunks 5 2 (by decide) (by decide)⟩
